import Mathlib

/-!
Verification development for the C foreign-function boundary of the
SurrealDB client (`libsrc/surrealdb.h`).

The repository ships only the interface header: the type layout, the
status-code constants and every function signature come from the header
itself, while the behaviour of the functions (structural equality,
object insertion, the connection and stream state machines) is modelled
from the accompanying specification, as indicated on each definition.

Numeric payloads: `int64_t` payloads are modelled as `Int`; IEEE-754
`float`/`double` payloads are modelled as their bit patterns (`Nat`,
32 and 64 bits respectively), compared bitwise.
-/

set_option autoImplicit false

namespace Surreal

/-! ## Status-code constants (header lines 6-12) -/

def sr_SR_NONE : Int := 0

def sr_SR_CLOSED : Int := -1

def sr_SR_ERROR : Int := -2

def sr_SR_FATAL : Int := -3

/-! ## Scalar carrier types (header lines 14-116) -/

/-- `sr_action` (header): the action reported by a live-query Notification. -/
inductive sr_action where
  | create
  | update
  | delete
deriving DecidableEq

/-- `sr_number_t` (header lines 57-72): tagged union of a 64-bit signed
integer and a 64-bit float.  The float payload is modelled as its 64-bit
pattern. -/
inductive sr_number_t where
  | sr_number_int (i : Int)
  | sr_number_float (bits : Nat)
deriving DecidableEq

/-- `sr_duration_t` (header lines 74-77): seconds (`uint64_t`) plus
nanoseconds (`uint32_t`). -/
structure sr_duration_t where
  secs : Nat
  nanos : Nat
deriving DecidableEq

/-- `sr_uuid_t` (header lines 79-81): a fixed 16-byte identifier. -/
structure sr_uuid_t where
  bytes : List Nat
deriving DecidableEq

/-- `sr_bytes_t` (header lines 83-86): an owned buffer; the `len` field is
the length of the modelled byte list. -/
structure sr_bytes_t where
  arr : List Nat
deriving DecidableEq

/-! ## The Value model (header lines 88-172)

`sr_value_t` and `sr_id_t` are mutually recursive: a Value can be a Thing
whose Id can in turn hold arrays and objects of Values.  An Object
(`sr_object_t`) is opaque in the header; the spec describes it as an
ordered-insertion map from string keys to Values, modelled here as an
association list.  `sr_thing_t` is inlined into the `sr_value_thing`
constructor as its `table` and `id` fields. -/

mutual

inductive sr_value_t where
  | sr_value_none
  | sr_value_null
  | sr_value_bool (b : Bool)
  | sr_value_number (n : sr_number_t)
  | sr_value_strand (s : String)
  | sr_value_duration (d : sr_duration_t)
  | sr_value_datetime (s : String)
  | sr_value_uuid (u : sr_uuid_t)
  | sr_value_array (a : List sr_value_t)
  | sr_value_object (o : List (String × sr_value_t))
  | sr_value_bytes (b : sr_bytes_t)
  | sr_value_thing (table : String) (id : sr_id_t)

inductive sr_id_t where
  | sr_id_number (i : Int)
  | sr_id_string (s : String)
  | sr_id_array (a : List sr_value_t)
  | sr_id_object (o : List (String × sr_value_t))

end

/-- The numeric tag of a Value, following the order of `sr_value_t_Tag`
in the header (lines 118-131). -/
def sr_value_tag : sr_value_t → Nat
  | .sr_value_none => 0
  | .sr_value_null => 1
  | .sr_value_bool _ => 2
  | .sr_value_number _ => 3
  | .sr_value_strand _ => 4
  | .sr_value_duration _ => 5
  | .sr_value_datetime _ => 6
  | .sr_value_uuid _ => 7
  | .sr_value_array _ => 8
  | .sr_value_object _ => 9
  | .sr_value_bytes _ => 10
  | .sr_value_thing _ _ => 11

/-! ## Structural equality (`sr_value_eq`, header line 440)

Modelled from the spec: "`value_eq(a, b)`: deep structural equality —
tags must match, and for composite variants every element/entry must be
recursively equal; Object equality is order-independent (compares as a
set of key/value pairs), Array equality is order-dependent." -/

mutual

/-- Modelled from the spec: deep structural equality of two Values
(`sr_value_eq`, declared but not implemented in the header). -/
def sr_value_eq : sr_value_t → sr_value_t → Bool
  | .sr_value_none, .sr_value_none => true
  | .sr_value_null, .sr_value_null => true
  | .sr_value_bool a, .sr_value_bool b => decide (a = b)
  | .sr_value_number a, .sr_value_number b => decide (a = b)
  | .sr_value_strand a, .sr_value_strand b => decide (a = b)
  | .sr_value_duration a, .sr_value_duration b => decide (a = b)
  | .sr_value_datetime a, .sr_value_datetime b => decide (a = b)
  | .sr_value_uuid a, .sr_value_uuid b => decide (a = b)
  | .sr_value_array a, .sr_value_array b => arrayEqList a b
  | .sr_value_object a, .sr_value_object b => entriesSub a b && entriesSub b a
  | .sr_value_bytes a, .sr_value_bytes b => decide (a = b)
  | .sr_value_thing t1 i1, .sr_value_thing t2 i2 => decide (t1 = t2) && sr_id_eq i1 i2
  | _, _ => false
termination_by a b => sizeOf a + sizeOf b

/-- Modelled from the spec: structural equality of record Ids. -/
def sr_id_eq : sr_id_t → sr_id_t → Bool
  | .sr_id_number a, .sr_id_number b => decide (a = b)
  | .sr_id_string a, .sr_id_string b => decide (a = b)
  | .sr_id_array a, .sr_id_array b => arrayEqList a b
  | .sr_id_object a, .sr_id_object b => entriesSub a b && entriesSub b a
  | _, _ => false
termination_by a b => sizeOf a + sizeOf b

/-- Order-dependent, element-wise equality of Value sequences (Array
equality per the spec). -/
def arrayEqList : List sr_value_t → List sr_value_t → Bool
  | [], [] => true
  | x :: xs, y :: ys => sr_value_eq x y && arrayEqList xs ys
  | _, _ => false
termination_by a b => sizeOf a + sizeOf b

/-- Does an equal key/value entry occur in the list?  (Helper for the
set-of-entries comparison of Objects.) -/
def entryIn : String × sr_value_t → List (String × sr_value_t) → Bool
  | _, [] => false
  | (k, v), (k2, v2) :: qs => (decide (k = k2) && sr_value_eq v v2) || entryIn (k, v) qs
termination_by p l => sizeOf p + sizeOf l

/-- Is every entry of the first list matched by an equal entry of the
second?  (One inclusion of the set-of-entries comparison of Objects.) -/
def entriesSub : List (String × sr_value_t) → List (String × sr_value_t) → Bool
  | [], _ => true
  | p :: ps, b => entryIn p b && entriesSub ps b
termination_by a b => sizeOf a + sizeOf b

end

/-! ## Object primitives (header lines 407-419)

Modelled from the spec: "`Object::new()` creates an empty map.
`insert(key, value)` overwrites any existing entry for key"; an Object is
an "opaque ordered-insertion map from string keys to Value; keys unique
(last insert wins)". -/

/-- The modelled content of an `sr_object_t`: its entries in insertion
order, keys unique. -/
abbrev SrObject : Type := List (String × sr_value_t)

/-- Modelled from the spec: `sr_object_new` creates an empty map. -/
def sr_object_new : SrObject := []

/-- Remove every entry carrying the given key. -/
def removeKey (k : String) : SrObject → SrObject
  | [] => []
  | p :: ps => if p.1 = k then removeKey k ps else p :: removeKey k ps

/-- Modelled from the spec: `sr_object_insert` overwrites any existing
entry for the key, keeping keys unique with the last insert winning. -/
def sr_object_insert (o : SrObject) (k : String) (v : sr_value_t) : SrObject :=
  removeKey k o ++ [(k, v)]

/-- Modelled from the spec: `sr_object_get` returns a view of the value
stored under the key, or a "not found" signal (`none`) for an absent key. -/
def sr_object_get : SrObject → String → Option sr_value_t
  | [], _ => none
  | p :: ps, k => if p.1 = k then some p.2 else sr_object_get ps k

/-- Insert a list of key/value pairs into an Object, in order. -/
def insertAll (o : SrObject) (l : List (String × sr_value_t)) : SrObject :=
  l.foldl (fun acc p => sr_object_insert acc p.1 p.2) o

/-! ## C scalar argument types of the typed convenience inserts -/

/-- A C `int` argument (32-bit signed, per the `int value` parameter of
`sr_object_insert_int` in the header, line 415). -/
structure c_int where
  val : Int
  lower : -(2 ^ 31) ≤ val
  upper : val < 2 ^ 31

/-- A C `float` argument, as its 32-bit IEEE-754 pattern. -/
structure c_float where
  bits : Nat

/-- A C `double` argument, as its 64-bit IEEE-754 pattern. -/
structure c_double where
  bits : Nat

/-- IEEE-754 binary32-to-binary64 widening on bit patterns.  The
conversion is exact (every `float` is representable as a `double`):
sign is kept, the exponent is re-biased from 127 to 1023, the mantissa
is left-shifted into the 52-bit field, and subnormal inputs are
normalised. -/
def floatToDoubleBits (b0 : Nat) : Nat :=
  let b := b0 % 2 ^ 32
  let s := b / 2 ^ 31
  let e := (b / 2 ^ 23) % 2 ^ 8
  let m := b % 2 ^ 23
  if e = 255 then
    s * 2 ^ 63 + 2047 * 2 ^ 52 + m * 2 ^ 29
  else if e = 0 then
    if m = 0 then
      s * 2 ^ 63
    else
      let l := Nat.log2 m
      s * 2 ^ 63 + (l + 874) * 2 ^ 52 + (m - 2 ^ l) * 2 ^ (52 - l)
  else
    s * 2 ^ 63 + (e + 896) * 2 ^ 52 + m * 2 ^ 29

/-! Modelled from the spec: the "typed convenience inserts (`insert_str`,
`insert_int`, `insert_float`, `insert_double`) are sugar that construct
the corresponding Value variant internally" (Strand for `str`,
Number/int for `int`, Number/float for `float` and `double`). -/

/-- Modelled from the spec: `sr_object_insert_str` stores a Strand Value. -/
def sr_object_insert_str (o : SrObject) (k : String) (s : String) : SrObject :=
  sr_object_insert o k (.sr_value_strand s)

/-- Modelled from the spec: `sr_object_insert_int` stores a Number/int
Value built from its C `int` argument. -/
def sr_object_insert_int (o : SrObject) (k : String) (i : c_int) : SrObject :=
  sr_object_insert o k (.sr_value_number (.sr_number_int i.val))

/-- Modelled from the spec: `sr_object_insert_float` widens its C `float`
argument to a double and stores a Number/float Value. -/
def sr_object_insert_float (o : SrObject) (k : String) (f : c_float) : SrObject :=
  sr_object_insert o k (.sr_value_number (.sr_number_float (floatToDoubleBits f.bits)))

/-- Modelled from the spec: `sr_object_insert_double` stores a
Number/float Value. -/
def sr_object_insert_double (o : SrObject) (k : String) (d : c_double) : SrObject :=
  sr_object_insert o k (.sr_value_number (.sr_number_float d.bits))

/-! ## Notifications and the Live Stream (header lines 193-197, 427-434) -/

/-- `sr_notification_t` (header lines 193-197). -/
structure sr_notification_t where
  query_id : sr_uuid_t
  action : sr_action
  data : sr_value_t

/-- Modelled from the spec: the state of a Live Stream — the queue of
notifications not yet pulled, and whether the stream has transitioned to
its terminal Closed state. -/
structure StreamState where
  pending : List sr_notification_t
  closed : Bool

/-- The outcome of one returning `sr_stream_next` call. -/
structure StreamNextResult where
  status : Int
  notification : Option sr_notification_t
  rest : StreamState

/-- Modelled from the spec: `sr_stream_next` "blocks until next item is
recieved on stream; will return 1 and write notification to
notification_ptr is recieved; will return SR_NONE if the stream is
closed" (header lines 427-431).  A call that would block forever (stream
open, nothing pending) has no returned outcome, modelled as `none`. -/
def sr_stream_next (s : StreamState) : Option StreamNextResult :=
  match s.pending with
  | n :: rest => some ⟨1, some n, ⟨rest, s.closed⟩⟩
  | [] => if s.closed then some ⟨sr_SR_NONE, none, s⟩ else none

/-- Modelled from the spec: `kill()` requests termination; subsequent
`next()` calls return NONE; idempotent. -/
def sr_stream_kill (_ : StreamState) : StreamState := ⟨[], true⟩

/-! ## Connection session state: `sr_use_ns` / `sr_use_db`
(header lines 323-355) -/

/-- Modelled from the spec: the namespace/database selection state of a
connection handle. -/
structure ConnState where
  ns : Option String
  db : Option String

/-- A freshly connected handle: no namespace, no database selected. -/
def freshConn : ConnState := ⟨none, none⟩

/-- Modelled from the spec: `sr_use_ns` selects the namespace for
subsequent operations; a void-like call returning 0 on success. -/
def sr_use_ns (c : ConnState) (name : String) : Int × ConnState :=
  (0, ⟨some name, c.db⟩)

/-- Modelled from the spec: `sr_use_db` selects the database; the
namespace must have been selected first, and "selecting a database
without a prior namespace selection is documented as invalid and returns
ERROR". -/
def sr_use_db (c : ConnState) (name : String) : Int × ConnState :=
  match c.ns with
  | none => (sr_SR_ERROR, c)
  | some _ => (0, ⟨c.ns, some name⟩)

/-! ## `sr_connect` (header lines 199-233) -/

/-- Is `pre` an initial segment of `l`? -/
def strStarts : List Char → List Char → Bool
  | [], _ => true
  | _ :: _, [] => false
  | c :: cs, d :: ds => decide (c = d) && strStarts cs ds

/-- Modelled from the spec: an endpoint URI is recognised by its scheme —
`mem://` (ephemeral), `surrealkv://<path>` (embedded durable store),
`ws://` / `wss://` (remote streaming transport). -/
def validEndpointScheme (ep : String) : Bool :=
  strStarts "mem://".toList ep.toList ||
  strStarts "surrealkv://".toList ep.toList ||
  strStarts "ws://".toList ep.toList ||
  strStarts "wss://".toList ep.toList

/-- The observable outcome of one `sr_connect` call: the returned status,
what was written through `err_ptr` (`none` when nothing was), and
whether the handle out-parameter `surreal_ptr` was written. -/
structure ConnectResult where
  status : Int
  err : Option String
  handleWritten : Bool

/-- Modelled from the spec: `sr_connect` "fails with ERROR on malformed
URI or unreachable backend"; on failure an owned, non-empty message is
written through `err_ptr` and the handle out-parameter is not written;
on success it returns a positive status and writes the handle. -/
def sr_connect (ep : String) : ConnectResult :=
  if validEndpointScheme ep then ⟨1, none, true⟩
  else ⟨sr_SR_ERROR, some ("unsupported endpoint: " ++ ep), false⟩

/-! ## The connection-handle fault model (header lines 29-38, spec 4.2)

Modelled from the spec: "States: `Open → Poisoned` (irreversible,
triggered by any FATAL result) and `Open/Poisoned → Disconnected`
(triggered only by the explicit disconnect call)"; after FATAL "every
subsequent operation on that same object, from any thread, is undefined
behavior" — the header says use after poisoning "will cause the program
to abort". -/

inductive HandleState where
  | opened
  | poisoned
  | disconnected
deriving DecidableEq

/-- An event observed on a connection handle: some operation returned
the given status code, or the handle was explicitly disconnected. -/
inductive HandleEvent where
  | opResult (code : Int)
  | disconnect

/-- Modelled from the spec: the handle lifecycle.  `none` means the step
has no defined result (the implementation aborts): running any operation
on a Poisoned handle, or touching a Disconnected handle at all. -/
def handleStep : HandleState → HandleEvent → Option HandleState
  | .opened, .opResult c => some (if c = sr_SR_FATAL then .poisoned else .opened)
  | .opened, .disconnect => some .disconnected
  | .poisoned, .opResult _ => none
  | .poisoned, .disconnect => some .disconnected
  | .disconnected, _ => none

/-- Run a sequence of events on a handle; undefined as soon as any step
is undefined. -/
def runHandle (s : HandleState) : List HandleEvent → Option HandleState
  | [] => some s
  | e :: es =>
    match handleStep s e with
    | none => none
    | some s2 => runHandle s2 es

/-! ## Lemmas: structural equality is reflexive and symmetric -/

theorem entryIn_of_mem : ∀ (p : String × sr_value_t) (l : SrObject), p ∈ l →
    sr_value_eq p.2 p.2 = true → entryIn p l = true := by
  intro p l hm hv
  induction l with
  | nil => cases hm
  | cons q qs ih =>
    obtain ⟨k, v⟩ := p
    obtain ⟨k2, v2⟩ := q
    rcases List.mem_cons.mp hm with h | h
    · obtain ⟨rfl, rfl⟩ := Prod.mk.injEq .. ▸ h
      simp [entryIn, hv]
    · simp [entryIn, ih h]

theorem entriesSub_of_forall : ∀ (l m : SrObject), (∀ p ∈ l, entryIn p m = true) →
    entriesSub l m = true := by
  intro l m h
  induction l with
  | nil => simp [entriesSub]
  | cons p ps ih =>
    simp [entriesSub, h p (List.mem_cons_self p ps), ih (fun q hq => h q (List.mem_cons_of_mem p hq))]

theorem arrayEqList_of_forall : ∀ (l : List sr_value_t), (∀ v ∈ l, sr_value_eq v v = true) →
    arrayEqList l l = true := by
  intro l h
  induction l with
  | nil => simp [arrayEqList]
  | cons x xs ih =>
    simp [arrayEqList, h x (List.mem_cons_self x xs), ih (fun v hv => h v (List.mem_cons_of_mem x hv))]

mutual

theorem sr_value_eq_refl : ∀ (v : sr_value_t), sr_value_eq v v = true
  | .sr_value_none => by simp [sr_value_eq]
  | .sr_value_null => by simp [sr_value_eq]
  | .sr_value_bool b => by simp [sr_value_eq]
  | .sr_value_number n => by simp [sr_value_eq]
  | .sr_value_strand s => by simp [sr_value_eq]
  | .sr_value_duration d => by simp [sr_value_eq]
  | .sr_value_datetime s => by simp [sr_value_eq]
  | .sr_value_uuid u => by simp [sr_value_eq]
  | .sr_value_array a => by
      have h : ∀ v ∈ a, sr_value_eq v v = true := fun v hv => sr_value_eq_refl v
      simp [sr_value_eq, arrayEqList_of_forall a h]
  | .sr_value_object o => by
      have h : ∀ p ∈ o, sr_value_eq p.2 p.2 = true := fun p hp => sr_value_eq_refl p.2
      simp [sr_value_eq, entriesSub_of_forall o o (fun p hp => entryIn_of_mem p o hp (h p hp))]
  | .sr_value_bytes b => by simp [sr_value_eq]
  | .sr_value_thing t i => by
      have h := sr_id_eq_refl i
      simp [sr_value_eq, h]
termination_by v => sizeOf v
decreasing_by
  all_goals simp_wf
  all_goals first
    | (have h1 := List.sizeOf_lt_of_mem hv; omega)
    | (have h1 := List.sizeOf_lt_of_mem hp; obtain ⟨k1, v1⟩ := p; simp [Prod.mk.sizeOf_spec] at h1; simp; omega)

theorem sr_id_eq_refl : ∀ (i : sr_id_t), sr_id_eq i i = true
  | .sr_id_number n => by simp [sr_id_eq]
  | .sr_id_string s => by simp [sr_id_eq]
  | .sr_id_array a => by
      have h : ∀ v ∈ a, sr_value_eq v v = true := fun v hv => sr_value_eq_refl v
      simp [sr_id_eq, arrayEqList_of_forall a h]
  | .sr_id_object o => by
      have h : ∀ p ∈ o, sr_value_eq p.2 p.2 = true := fun p hp => sr_value_eq_refl p.2
      simp [sr_id_eq, entriesSub_of_forall o o (fun p hp => entryIn_of_mem p o hp (h p hp))]
termination_by i => sizeOf i
decreasing_by
  all_goals simp_wf
  all_goals first
    | (have h1 := List.sizeOf_lt_of_mem hv; omega)
    | (have h1 := List.sizeOf_lt_of_mem hp; obtain ⟨k1, v1⟩ := p; simp [Prod.mk.sizeOf_spec] at h1; simp; omega)

end

theorem decideEqSymm {α : Type} [DecidableEq α] (a b : α) :
    (decide (a = b)) = (decide (b = a)) :=
  decide_eq_decide.mpr eq_comm

mutual

theorem sr_value_eq_symm (a b : sr_value_t) : sr_value_eq a b = sr_value_eq b a := by
  cases a <;> cases b <;> try simp [sr_value_eq, decideEqSymm, Bool.and_comm]
  all_goals first
    | exact arrayEqList_symm _ _
    | exact sr_id_eq_symm _ _
    | exact decideEqSymm _ _
    | (rename_i t1 i1 t2 i2
       have h := sr_id_eq_symm i1 i2
       simp [h, decideEqSymm t1 t2])
termination_by sizeOf a + sizeOf b

theorem sr_id_eq_symm (a b : sr_id_t) : sr_id_eq a b = sr_id_eq b a := by
  cases a <;> cases b <;> try simp [sr_id_eq, decideEqSymm, Bool.and_comm]
  all_goals exact arrayEqList_symm _ _
termination_by sizeOf a + sizeOf b

theorem arrayEqList_symm (xs ys : List sr_value_t) : arrayEqList xs ys = arrayEqList ys xs := by
  cases xs <;> cases ys <;> try simp [arrayEqList]
  rename_i x xs2 y ys2
  have h1 := sr_value_eq_symm x y
  have h2 := arrayEqList_symm xs2 ys2
  simp [h1, h2]
termination_by sizeOf xs + sizeOf ys

end

theorem sr_value_eq_ne_tag (a b : sr_value_t) (h : sr_value_tag a ≠ sr_value_tag b) :
    sr_value_eq a b = false := by
  cases a <;> cases b <;> first
    | exact absurd rfl h
    | simp [sr_value_eq]

/-! ## Lemmas: Object insertion and lookup -/

theorem get_removeKey_append (k : String) (v : sr_value_t) :
    ∀ o : SrObject, sr_object_get (removeKey k o ++ [(k, v)]) k = some v := by
  intro o
  induction o with
  | nil => simp [removeKey, sr_object_get]
  | cons p ps ih =>
    by_cases h : p.1 = k
    · simpa [removeKey, h] using ih
    · simpa [removeKey, h, sr_object_get] using ih

theorem sr_object_get_insert (o : SrObject) (k : String) (v : sr_value_t) :
    sr_object_get (sr_object_insert o k v) k = some v :=
  get_removeKey_append k v o

theorem removeKey_eq_of_not_mem (k : String) :
    ∀ o : SrObject, (∀ q ∈ o, q.1 ≠ k) → removeKey k o = o := by
  intro o h
  induction o with
  | nil => rfl
  | cons p ps ih =>
    have hp : p.1 ≠ k := h p (List.mem_cons_self p ps)
    simp [removeKey, hp, ih (fun q hq => h q (List.mem_cons_of_mem p hq))]

theorem insertAll_append_of_fresh :
    ∀ (l : List (String × sr_value_t)) (acc : SrObject),
      (l.map Prod.fst).Nodup → (∀ p ∈ l, ∀ q ∈ acc, p.1 ≠ q.1) →
      insertAll acc l = acc ++ l := by
  intro l
  induction l with
  | nil => intro acc _ _; simp [insertAll]
  | cons p ps ih =>
    intro acc hnd hfresh
    have hacc : removeKey p.1 acc = acc := by
      refine removeKey_eq_of_not_mem p.1 acc (fun q hq => ?_)
      exact fun he => hfresh p (List.mem_cons_self p ps) q hq he.symm
    have hstep : sr_object_insert acc p.1 p.2 = acc ++ [p] := by
      simp [sr_object_insert, hacc]
    have hnd2 : (ps.map Prod.fst).Nodup := (List.nodup_cons.mp hnd).2
    have hfresh2 : ∀ r ∈ ps, ∀ q ∈ acc ++ [p], r.1 ≠ q.1 := by
      intro r hr q hq
      rcases List.mem_append.mp hq with hq | hq
      · exact hfresh r (List.mem_cons_of_mem p hr) q hq
      · rw [List.mem_singleton.mp hq]
        have hkey : p.1 ∉ ps.map Prod.fst := (List.nodup_cons.mp hnd).1
        exact fun he => hkey (he ▸ List.mem_map_of_mem Prod.fst hr)
    have := ih (acc ++ [p]) hnd2 hfresh2
    calc insertAll acc (p :: ps) = insertAll (acc ++ [p]) ps := by
          simp [insertAll, hstep]
      _ = (acc ++ [p]) ++ ps := this
      _ = acc ++ p :: ps := by simp

theorem insertAll_fresh_eq (l : List (String × sr_value_t)) (hnd : (l.map Prod.fst).Nodup) :
    insertAll sr_object_new l = l := by
  simpa [sr_object_new] using
    insertAll_append_of_fresh l [] hnd (by intro p _ q hq; cases hq)

theorem object_eq_of_perm (l1 l2 : SrObject) (hperm : l1.Perm l2) :
    sr_value_eq (.sr_value_object l1) (.sr_value_object l2) = true := by
  have h1 : entriesSub l1 l2 = true :=
    entriesSub_of_forall l1 l2 (fun p hp =>
      entryIn_of_mem p l2 (hperm.mem_iff.mp hp) (sr_value_eq_refl p.2))
  have h2 : entriesSub l2 l1 = true :=
    entriesSub_of_forall l2 l1 (fun p hp =>
      entryIn_of_mem p l1 (hperm.mem_iff.mpr hp) (sr_value_eq_refl p.2))
  simp [sr_value_eq, h1, h2]

/-! ## The claims -/

/-- C1: for every Value `V` constructible in the value model,
`sr_value_eq(V, V)` returns true (reflexivity); for all Values `a` and
`b`, `sr_value_eq(a, b)` equals `sr_value_eq(b, a)` (symmetry); and
whenever `a` and `b` carry different tags, `sr_value_eq(a, b)` returns
false. -/
theorem claim_C1 :
    (∀ v : sr_value_t, sr_value_eq v v = true) ∧
    (∀ a b : sr_value_t, sr_value_eq a b = sr_value_eq b a) ∧
    (∀ a b : sr_value_t, sr_value_tag a ≠ sr_value_tag b → sr_value_eq a b = false) :=
  ⟨sr_value_eq_refl, sr_value_eq_symm, sr_value_eq_ne_tag⟩

/-- Witness for C1 at concrete Values. -/
theorem claim_C1_witness :
    sr_value_eq (.sr_value_strand "x") (.sr_value_strand "x") = true ∧
    sr_value_eq (.sr_value_strand "x") .sr_value_null =
      sr_value_eq .sr_value_null (.sr_value_strand "x") ∧
    sr_value_eq .sr_value_none .sr_value_null = false :=
  ⟨claim_C1.1 _, claim_C1.2.1 _ _, claim_C1.2.2 _ _ (by decide)⟩

/-- C2: for every Value `V` and key `K`, inserting `V` into a freshly
created Object under `K` and then calling `sr_object_get` with `K`
yields a present value structurally equal (`sr_value_eq`) to `V`. -/
theorem claim_C2 (K : String) (V : sr_value_t) :
    ∃ r, sr_object_get (sr_object_insert sr_object_new K V) K = some r ∧
      sr_value_eq r V = true :=
  ⟨V, sr_object_get_insert sr_object_new K V, sr_value_eq_refl V⟩

/-- C3: `sr_value_eq` on Objects is insertion-order-independent —
inserting the same key/value pairs in different orders into two fresh
Objects yields `value_eq`-equal Objects — while `sr_value_eq` on Arrays
is order-dependent. -/
theorem claim_C3 :
    (∀ l1 l2 : List (String × sr_value_t), l1.Perm l2 → (l1.map Prod.fst).Nodup →
      sr_value_eq (.sr_value_object (insertAll sr_object_new l1))
        (.sr_value_object (insertAll sr_object_new l2)) = true) ∧
    sr_value_eq
      (.sr_value_array [.sr_value_number (.sr_number_int 1), .sr_value_number (.sr_number_int 2)])
      (.sr_value_array [.sr_value_number (.sr_number_int 2), .sr_value_number (.sr_number_int 1)])
      = false := by
  constructor
  · intro l1 l2 hperm hnd1
    have hnd2 : (l2.map Prod.fst).Nodup := ((hperm.map Prod.fst).nodup_iff).mp hnd1
    rw [insertAll_fresh_eq l1 hnd1, insertAll_fresh_eq l2 hnd2]
    exact object_eq_of_perm l1 l2 hperm
  · simp [sr_value_eq, arrayEqList]

/-- Witness for C3: the spec's example `{a:1, b:2}` versus `{b:2, a:1}`. -/
theorem claim_C3_witness :
    sr_value_eq
      (.sr_value_object (insertAll sr_object_new
        [("a", .sr_value_number (.sr_number_int 1)), ("b", .sr_value_number (.sr_number_int 2))]))
      (.sr_value_object (insertAll sr_object_new
        [("b", .sr_value_number (.sr_number_int 2)), ("a", .sr_value_number (.sr_number_int 1))]))
      = true :=
  claim_C3.1 _ _ (List.Perm.swap _ _ _) (by simp)

/-- C4: each typed convenience insert stores exactly the Value that the
generic `sr_object_insert` would store when given the explicitly
constructed Value of that variant (Strand for `str`, Number/int for
`int`, Number/float for `float` and `double`). -/
theorem claim_C4 (o : SrObject) (k : String) (s : String) (i : c_int) (f : c_float)
    (d : c_double) :
    sr_object_insert_str o k s = sr_object_insert o k (.sr_value_strand s) ∧
    sr_object_insert_int o k i =
      sr_object_insert o k (.sr_value_number (.sr_number_int i.val)) ∧
    sr_object_insert_float o k f =
      sr_object_insert o k (.sr_value_number (.sr_number_float (floatToDoubleBits f.bits))) ∧
    sr_object_insert_double o k d =
      sr_object_insert o k (.sr_value_number (.sr_number_float d.bits)) :=
  ⟨rfl, rfl, rfl, rfl⟩

/-! ## Lemmas: the stream and handle state machines -/

theorem sr_stream_next_cases (s : StreamState) (r : StreamNextResult)
    (h : sr_stream_next s = some r) :
    (r.status = 1 ∧ ∃ n, r.notification = some n) ∨
    (r.status = sr_SR_NONE ∧ r.notification = none ∧ s.closed = true) := by
  obtain ⟨pending, closed⟩ := s
  cases pending with
  | cons n rest =>
    have he : sr_stream_next ⟨n :: rest, closed⟩ = some ⟨1, some n, ⟨rest, closed⟩⟩ := rfl
    rw [he] at h
    injection h with h2
    rw [← h2]
    exact Or.inl ⟨rfl, n, rfl⟩
  | nil =>
    cases closed with
    | false => simp [sr_stream_next] at h
    | true =>
      have he : sr_stream_next ⟨[], true⟩ = some ⟨sr_SR_NONE, none, ⟨[], true⟩⟩ := rfl
      rw [he] at h
      injection h with h2
      rw [← h2]
      exact Or.inr ⟨rfl, rfl, rfl⟩

theorem runHandle_disconnected (evts : List HandleEvent) (s2 : HandleState)
    (h : runHandle .disconnected evts = some s2) : s2 = .disconnected := by
  cases evts with
  | nil =>
    injection h with h2
    exact h2.symm
  | cons e es => simp [runHandle, handleStep] at h

theorem runHandle_poisoned_ne_opened (evts : List HandleEvent) (s2 : HandleState)
    (h : runHandle .poisoned evts = some s2) : s2 ≠ .opened := by
  cases evts with
  | nil =>
    injection h with h2
    rw [← h2]
    decide
  | cons e es =>
    cases e with
    | opResult c => simp [runHandle, handleStep] at h
    | disconnect =>
      simp only [runHandle, handleStep] at h
      rw [runHandle_disconnected es s2 h]
      decide

/-- C5: the status-code constants have exactly the values NONE = 0,
CLOSED = -1, ERROR = -2, FATAL = -3, and every modelled operation
returns either a success value (positive, or 0 for the void-like
namespace/database selections) or one of those constants. -/
theorem claim_C5 :
    sr_SR_NONE = 0 ∧ sr_SR_CLOSED = -1 ∧ sr_SR_ERROR = -2 ∧ sr_SR_FATAL = -3 ∧
    (∀ ep : String, 0 < (sr_connect ep).status ∨ (sr_connect ep).status = sr_SR_ERROR) ∧
    (∀ (c : ConnState) (n : String),
      (sr_use_db c n).1 = 0 ∨ (sr_use_db c n).1 = sr_SR_ERROR) ∧
    (∀ (c : ConnState) (n : String), (sr_use_ns c n).1 = 0) ∧
    (∀ (s : StreamState) (r : StreamNextResult), sr_stream_next s = some r →
      0 < r.status ∨ r.status = sr_SR_NONE) := by
  refine ⟨rfl, rfl, rfl, rfl, ?_, ?_, fun c n => rfl, ?_⟩
  · intro ep
    unfold sr_connect
    by_cases hv : validEndpointScheme ep = true
    · rw [if_pos hv]
      exact Or.inl (by decide)
    · rw [if_neg hv]
      exact Or.inr rfl
  · intro c n
    cases hc : c.ns <;> simp [sr_use_db, hc]
  · intro s r h
    rcases sr_stream_next_cases s r h with ⟨h1, _⟩ | ⟨h1, _⟩
    · exact Or.inl (h1 ▸ (by decide))
    · exact Or.inr h1

/-- Witness for C5 at a concrete closed stream. -/
theorem claim_C5_witness :
    0 < (⟨sr_SR_NONE, none, ⟨[], true⟩⟩ : StreamNextResult).status ∨
      (⟨sr_SR_NONE, none, ⟨[], true⟩⟩ : StreamNextResult).status = sr_SR_NONE :=
  claim_C5.2.2.2.2.2.2.2 ⟨[], true⟩ ⟨sr_SR_NONE, none, ⟨[], true⟩⟩ rfl

/-- C6: calling `sr_use_db` on a fresh connection handle, before any
successful `sr_use_ns` on that handle, returns ERROR. -/
theorem claim_C6 (name : String) : (sr_use_db freshConn name).1 = sr_SR_ERROR := rfl

/-- C7: every returning `sr_stream_next` call either returns 1 having
written a Notification through the out-parameter, or returns NONE with
the stream in its Closed state; it never returns ERROR or FATAL. -/
theorem claim_C7 (s : StreamState) (r : StreamNextResult)
    (h : sr_stream_next s = some r) :
    ((r.status = 1 ∧ ∃ n, r.notification = some n) ∨
      (r.status = sr_SR_NONE ∧ r.notification = none ∧ s.closed = true)) ∧
    r.status ≠ sr_SR_ERROR ∧ r.status ≠ sr_SR_FATAL := by
  rcases sr_stream_next_cases s r h with hc | hc
  · exact ⟨Or.inl hc, hc.1 ▸ (by decide), hc.1 ▸ (by decide)⟩
  · exact ⟨Or.inr hc, hc.1 ▸ (by decide), hc.1 ▸ (by decide)⟩

/-- Witness for C7 at a concrete closed stream. -/
theorem claim_C7_witness :
    (((⟨sr_SR_NONE, none, ⟨[], true⟩⟩ : StreamNextResult).status = 1 ∧
        ∃ n, (⟨sr_SR_NONE, none, ⟨[], true⟩⟩ : StreamNextResult).notification = some n) ∨
      ((⟨sr_SR_NONE, none, ⟨[], true⟩⟩ : StreamNextResult).status = sr_SR_NONE ∧
        (⟨sr_SR_NONE, none, ⟨[], true⟩⟩ : StreamNextResult).notification = none ∧
        (⟨[], true⟩ : StreamState).closed = true)) ∧
    (⟨sr_SR_NONE, none, ⟨[], true⟩⟩ : StreamNextResult).status ≠ sr_SR_ERROR ∧
    (⟨sr_SR_NONE, none, ⟨[], true⟩⟩ : StreamNextResult).status ≠ sr_SR_FATAL :=
  claim_C7 ⟨[], true⟩ ⟨sr_SR_NONE, none, ⟨[], true⟩⟩ rfl

/-- C8: for every endpoint URI whose scheme is not one of the supported
schemes, `sr_connect` returns ERROR, writes a non-empty error message
through `err_ptr`, and does not write the handle out-parameter. -/
theorem claim_C8 (ep : String) (h : validEndpointScheme ep = false) :
    (sr_connect ep).status = sr_SR_ERROR ∧
    (∃ m, (sr_connect ep).err = some m ∧ m ≠ "") ∧
    (sr_connect ep).handleWritten = false := by
  have hne : ("unsupported endpoint: " ++ ep) ≠ "" := by
    intro he
    have h2 := congrArg String.data he
    rw [String.data_append] at h2
    simp at h2
  unfold sr_connect
  rw [if_neg (by simp [h])]
  exact ⟨rfl, ⟨_, rfl, hne⟩, rfl⟩

/-- Witness for C8 at the spec's example endpoint `bogus://x`. -/
theorem claim_C8_witness :
    (sr_connect "bogus://x").status = sr_SR_ERROR ∧
    (∃ m, (sr_connect "bogus://x").err = some m ∧ m ≠ "") ∧
    (sr_connect "bogus://x").handleWritten = false :=
  claim_C8 "bogus://x" (by decide)

/-- C9: a FATAL result on an Open handle poisons it; only FATAL does;
every operation on a Poisoned handle has no defined result (the
implementation aborts); and no sequence of defined steps ever takes a
Poisoned handle back to Open. -/
theorem claim_C9 :
    handleStep .opened (.opResult sr_SR_FATAL) = some .poisoned ∧
    (∀ code : Int, handleStep .opened (.opResult code) = some .poisoned →
      code = sr_SR_FATAL) ∧
    (∀ code : Int, handleStep .poisoned (.opResult code) = none) ∧
    (∀ (evts : List HandleEvent) (s2 : HandleState),
      runHandle .poisoned evts = some s2 → s2 ≠ .opened) := by
  refine ⟨by simp [handleStep], ?_, fun code => rfl, runHandle_poisoned_ne_opened⟩
  intro code h
  by_cases hc : code = sr_SR_FATAL
  · exact hc
  · simp [handleStep, hc] at h

/-- Witness for C9 at a concrete poisoning status and event trace. -/
theorem claim_C9_witness :
    (-3 : Int) = sr_SR_FATAL ∧ HandleState.disconnected ≠ HandleState.opened :=
  ⟨claim_C9.2.1 (-3) rfl, claim_C9.2.2.2 [.disconnect] .disconnected rfl⟩

/-- C10: every integer Value created through `sr_object_insert_int`
carries a value in the 32-bit range `[-2^31, 2^31 - 1]` (its argument is
a C `int`), while the generic `sr_object_insert` stores any explicitly
constructed 64-bit Number/int Value. -/
theorem claim_C10 :
    (∀ (o : SrObject) (k : String) (i : c_int),
      sr_object_get (sr_object_insert_int o k i) k =
        some (.sr_value_number (.sr_number_int i.val)) ∧
      -(2 ^ 31) ≤ i.val ∧ i.val < 2 ^ 31) ∧
    (∀ (o : SrObject) (k : String) (j : Int),
      sr_object_get (sr_object_insert o k (.sr_value_number (.sr_number_int j))) k =
        some (.sr_value_number (.sr_number_int j))) :=
  ⟨fun o k i => ⟨sr_object_get_insert o k _, i.lower, i.upper⟩,
   fun o k j => sr_object_get_insert o k (.sr_value_number (.sr_number_int j))⟩

end Surreal
